import Mathlib

/-!
Verification of the scope-stack manager of the safe_v8 repository.

The development shallowly embeds `src/scope.rs` (the `data::ScopeData` state
machine, the `raw` primitive adapters and the `param` constructor rules) and
`src/handle.rs` (`Local`, `Global`, `HostIsolate`).  Pointers into the V8 heap
are modelled as natural numbers (`0` plays the role of the null pointer),
panics and `unreachable!()` are modelled with `Except String`, and the
heap-allocated chain of `ScopeData` boxes is modelled as a list of frames with
the most recently pushed frame at the head.  The identity of a frame (the stable
`NonNull<ScopeData>` pointer in Rust) is its index counted from the bottom of
the stack.
-/

namespace SafeV8

/-- Panic monad: `Except.error msg` models a Rust `panic!` / failed `expect` /
`unreachable!()` with the given message. -/
abbrev M (α : Type) : Type := Except String α

/-- Message used to model `unreachable!()` and other internal invariant
violations. -/
def unreachableMsg : String := "internal error: entered unreachable code"

/-- Embeds `data::ScopeStatus` from scope.rs. -/
inductive ScopeStatus
  | Free
  | Current (zombie : Bool)
  | Shadowed (zombie : Bool)
  deriving DecidableEq

/-- Address of a local-handle slot inside the modelled V8 heap: index of the
handle block in the block stack (counted from the bottom, stable across
pushes) and the slot index inside that block.  This models the
`NonNull<raw::Address>` stored in `raw::EscapeSlot`. -/
structure EscapeSlotLoc where
  block : Nat
  idx : Nat
  deriving DecidableEq

/-- Embeds `data::ScopeTypeSpecificData` from scope.rs.  The
`escapableHandleScope` variant carries `raw_escape_slot : Option EscapeSlot`;
`Option.none` there means the one-shot slot has already been taken by
`escape()`. -/
inductive Stsd
  | noData
  | contextScope (enteredContext : Nat)
  | handleScope
  | escapableHandleScope (rawEscapeSlot : Option EscapeSlotLoc)
  | tryCatch
  deriving DecidableEq

/-- Is this the scope-type-specific data of a handle-bearing scope (the two
variants given deferred-drop treatment by `notify_scope_dropped`)? -/
def Stsd.handleBearing : Stsd → Bool
  | .handleScope => true
  | .escapableHandleScope _ => true
  | _ => false

/-- Embeds the in-use fields of `data::ScopeData` (one heap-allocated frame of
the scope stack).  `context` is the cached current-context `Cell`;
`escapeSlot` is the inherited pointer to the nearest escape slot, modelled as
the from-bottom index of the frame owning it; `tryCatchSlot` likewise models
the `try_catch` pointer field. -/
structure Frame where
  status : ScopeStatus
  context : Option Nat
  escapeSlot : Option Nat
  tryCatchSlot : Option Nat
  stsd : Stsd
  deriving DecidableEq

/-- Model of the state V8 itself keeps for one isolate: the stack of local
handle blocks (bottom first, a block is the list of slot values it holds), the
stack of entered contexts (most recently entered first) and the number of
live TryCatch traps. -/
structure RawIsolate where
  blocks : List (List Nat)
  enteredContexts : List Nat
  traps : Nat
  deriving DecidableEq

/-- The raw address of the `undefined` value (any fixed non-null address). -/
def undefinedAddr : Nat := 1

/-- Model of `raw::v8__Local__New`: allocates a slot holding `v` in the
currently active (topmost) handle block and returns its address.  Calling it
with no active handle block is undefined behaviour in V8; the model reports it
as an error. -/
def rawLocalNew (raw : RawIsolate) (v : Nat) : M (RawIsolate × EscapeSlotLoc) :=
  match raw.blocks.getLast? with
  | Option.none => .error "no active handle block"
  | Option.some blk =>
    .ok ({ raw with blocks := raw.blocks.dropLast ++ [blk ++ [v]] },
         { block := raw.blocks.length - 1, idx := blk.length })

/-- Model of the `ptr::write` performed by `raw::EscapeSlot::escape`: stores
`v` in the slot at `loc` (no-op when out of range, like a raw write into
unowned memory would be untracked by the model). -/
def writeSlot (raw : RawIsolate) (loc : EscapeSlotLoc) (v : Nat) : RawIsolate :=
  { raw with
    blocks := raw.blocks.set loc.block
      (((raw.blocks.get? loc.block).getD []).set loc.idx v) }

/-- Reads the slot at `loc`. -/
def readSlot (raw : RawIsolate) (loc : EscapeSlotLoc) : Option Nat :=
  (raw.blocks.get? loc.block).bind fun blk => blk.get? loc.idx

/-- The whole modelled state: the scope stack (head = most recently pushed
frame, last = the root `ScopeData`), the raw V8 state, and the isolate slot
`current_scope_data`, modelled as the from-bottom index of the frame it
points at. -/
structure ScopeState where
  frames : List Frame
  raw : RawIsolate
  current : Nat
  deriving DecidableEq

/-- Embeds `ScopeData::new_root`: the initial state holds only the root
`ScopeData`, with status `Current { zombie: false }` and empty raw state. -/
def initState : ScopeState :=
  { frames := [{ status := .Current false, context := Option.none,
                 escapeSlot := Option.none, tryCatchSlot := Option.none,
                 stsd := .noData }],
    raw := { blocks := [], enteredContexts := [], traps := 0 },
    current := 0 }

/-- Embeds the common part of `ScopeData::new_scope_data_with`: mark the
parent (the current top frame) as `Shadowed`, create the child frame with
status `Current { zombie: false }` inheriting the parent fields `context` and
`escape_slot` fields, run the scope-type-specific part `initFn` (which may
update the raw state and the child frame; it receives, for the child, the from-bottom
index), push the child and point `current_scope_data` at it. -/
def newScopeData (s : ScopeState)
    (initFn : RawIsolate → Frame → Nat → M (RawIsolate × Frame)) :
    M ScopeState :=
  match s.frames with
  | [] => .error unreachableMsg
  | top :: rest =>
    match top.status with
    | .Current z =>
      let child : Frame :=
        { status := .Current false, context := top.context,
          escapeSlot := top.escapeSlot, tryCatchSlot := Option.none,
          stsd := .noData }
      let newIdx : Nat := (top :: rest).length
      match initFn s.raw child newIdx with
      | .error e => .error e
      | .ok (raw2, child2) =>
        .ok { frames := child2 :: { top with status := .Shadowed z } :: rest,
              raw := raw2, current := newIdx }
    | _ => .error unreachableMsg

/-- Embeds `ScopeData::new_context_scope_data`: enter the raw context
(`raw::ContextScope::new`), then cache it in the `context` field. -/
def newContextScopeData (s : ScopeState) (ctx : Nat) : M ScopeState :=
  newScopeData s fun raw child _ =>
    .ok ({ raw with enteredContexts := ctx :: raw.enteredContexts },
         { child with stsd := .contextScope ctx, context := Option.some ctx })

/-- Embeds `ScopeData::new_handle_scope_data`: initialize the raw
`HandleScope`, which opens a fresh local handle block. -/
def newHandleScopeData (s : ScopeState) : M ScopeState :=
  newScopeData s fun raw child _ =>
    .ok ({ raw with blocks := raw.blocks ++ [[]] },
         { child with stsd := .handleScope })

/-- Embeds `ScopeData::new_escapable_handle_scope_data`.  Faithful to the
source ordering: the `raw_escape_slot` is created first (`EscapeSlot::new`
allocates a local holding `undefined` in the still-active parent handle
block), and only afterwards is the own raw `HandleScope` of the scope initialized
(opening the block of the child).  The `escape_slot` pointer of the child is made to
point at its own freshly installed slot. -/
def newEscapableHandleScopeData (s : ScopeState) : M ScopeState :=
  newScopeData s fun raw child idx =>
    match rawLocalNew raw undefinedAddr with
    | .error e => .error e
    | .ok (raw1, slotLoc) =>
      .ok ({ raw1 with blocks := raw1.blocks ++ [[]] },
           { child with stsd := .escapableHandleScope (Option.some slotLoc),
                        escapeSlot := Option.some idx })

/-- Embeds `ScopeData::new_try_catch_data`: initialize the raw `TryCatch`
trap and make the `try_catch` pointer of the frame point at it. -/
def newTryCatchData (s : ScopeState) : M ScopeState :=
  newScopeData s fun raw child idx =>
    .ok ({ raw with traps := raw.traps + 1 },
         { child with stsd := .tryCatch, tryCatchSlot := Option.some idx })

/-- Embeds `ScopeData::new_callback_scope_data`: no scope-type-specific data;
the `context` cache is overwritten with the context the callback was entered
with (possibly clearing it). -/
def newCallbackScopeData (s : ScopeState) (maybeCtx : Option Nat) :
    M ScopeState :=
  newScopeData s fun raw child _ =>
    .ok (raw, { child with context := maybeCtx })

/-- Runs the destructor of the scope-type-specific data of a frame, i.e. the raw
side effects of dropping `ScopeTypeSpecificData`: a `raw::ContextScope` exits
its context, a raw `HandleScope` closes its handle block, a raw `TryCatch`
unregisters its trap. -/
def destructStsd (raw : RawIsolate) : Stsd → RawIsolate
  | .noData => raw
  | .contextScope _ => { raw with enteredContexts := raw.enteredContexts.tail }
  | .handleScope => { raw with blocks := raw.blocks.dropLast }
  | .escapableHandleScope _ => { raw with blocks := raw.blocks.dropLast }
  | .tryCatch => { raw with traps := raw.traps - 1 }

/-- Embeds `ScopeData::exit_scope`, always invoked on the current top frame:
destroy the scope-type-specific data (freeing the frame), point the
`current_scope_data` slot of the isolate at the parent and flip the parent status from
`Shadowed` back to `Current`.  Exiting the root (whose `previous` is `None`)
is the `previous.unwrap()` panic. -/
def exitTop (s : ScopeState) : M ScopeState :=
  match s.frames with
  | [] => .error unreachableMsg
  | top :: rest =>
    let raw2 := destructStsd s.raw top.stsd
    match rest with
    | [] => .error "cannot exit the root scope"
    | parent :: below =>
      match parent.status with
      | .Shadowed z =>
        .ok { frames := { parent with status := .Current z } :: below,
              raw := raw2, current := below.length }
      | _ => .error unreachableMsg

/-- Pops `n` frames off the top of the stack, requiring each of them to be a
zombie (`Current { zombie: true }`) at the moment it is popped.  This is the
iterative reading of the `try_exit_scope` recursion: a still-live scope in the
way is the fatal panic about dropping an active scope. -/
def popZombies (s : ScopeState) : Nat → M ScopeState
  | 0 => .ok s
  | n + 1 =>
    match s.frames with
    | [] => .error unreachableMsg
    | top :: _ =>
      match top.status with
      | .Current true =>
        match exitTop s with
        | .error e => .error e
        | .ok s1 => popZombies s1 n
      | .Current false => .error "active scope cannot be dropped"
      | _ => .error unreachableMsg

/-- Looks up the frame `d` positions below the top of the stack (`d = 0` is
the top). -/
def getFrameAt (s : ScopeState) (d : Nat) : M Frame :=
  match s.frames.get? d with
  | Option.some f => .ok f
  | Option.none => .error unreachableMsg

/-- Embeds `ScopeData::try_activate_scope`, invoked on the frame `d`
positions below the top: a frame that is already the live top is returned
as-is; a live shadowed frame first collapses (pops) every frame above it,
each of which must be a zombie; touching anything else is `unreachable!()`. -/
def tryActivateScope (s : ScopeState) (d : Nat) : M ScopeState :=
  match getFrameAt s d with
  | .error e => .error e
  | .ok f =>
    match f.status with
    | .Current false => .ok s
    | .Shadowed false => popZombies s d
    | _ => .error unreachableMsg

/-- Embeds `ScopeData::get_root_mut`: starting from the current scope (which
must have a `Current` status), exit every scope above the root; each of them
must be a zombie. -/
def getRootMut (s : ScopeState) : M ScopeState :=
  match s.frames with
  | [] => .error unreachableMsg
  | top :: _ =>
    match top.status with
    | .Current _ => popZombies s (s.frames.length - 1)
    | _ => .error unreachableMsg

/-- Embeds `ScopeData::notify_scope_dropped`, invoked (after activation) on
the top frame: a handle-bearing scope is only flagged as a zombie; every
other kind exits immediately. -/
def notifyScopeDropped (s : ScopeState) : M ScopeState :=
  match s.frames with
  | [] => .error unreachableMsg
  | top :: rest =>
    if top.stsd.handleBearing then
      match top.status with
      | .Current false =>
        .ok { s with frames := { top with status := .Current true } :: rest }
      | _ => .error unreachableMsg
    else
      exitTop s

/-- Embeds the `Drop` impl of every public scope type: `ScopeData::get_mut`
first touches (activates) the own frame of the scope, then
`notify_scope_dropped` runs on it. -/
def scopeDrop (s : ScopeState) (d : Nat) : M ScopeState :=
  match tryActivateScope s d with
  | .error e => .error e
  | .ok s1 => notifyScopeDropped s1

/-- Embeds the public `EscapableHandleScope::escape`, invoked on the scope
whose frame sits `d` positions below the top: activate the frame, follow its
`escape_slot` pointer to the owning frame, take the one-shot slot
(`None` left behind means a second call and is the
`"EscapableHandleScope::escape() called twice"` panic), write the escaped
address of the value into the slot and return a handle viewing that slot. -/
def escapeScope (s : ScopeState) (d : Nat) (v : Nat) :
    M (ScopeState × EscapeSlotLoc) :=
  match tryActivateScope s d with
  | .error e => .error e
  | .ok s1 =>
    match s1.frames with
    | [] => .error unreachableMsg
    | top :: _ =>
      match top.escapeSlot with
      | Option.none =>
        .error "internal error: EscapableHandleScope has no escape slot"
      | Option.some j =>
        let pos := s1.frames.length - 1 - j
        match getFrameAt s1 pos with
        | .error e => .error e
        | .ok owner =>
          match owner.stsd with
          | .escapableHandleScope (Option.some loc) =>
            .ok ({ s1 with
                    frames := s1.frames.set pos
                      { owner with stsd := .escapableHandleScope Option.none },
                    raw := writeSlot s1.raw loc v },
                 loc)
          | .escapableHandleScope Option.none =>
            .error "EscapableHandleScope::escape() called twice"
          | _ => .error unreachableMsg

/-- Embeds `HandleScope::new` with a scope parameter: `get_scope_data_mut`
activates the parent frame, then the new handle-scope data is pushed. -/
def handleScopeNew (s : ScopeState) (d : Nat) : M ScopeState :=
  match tryActivateScope s d with
  | .error e => .error e
  | .ok s1 => newHandleScopeData s1

/-- Embeds `HandleScope::new` with an `&mut Isolate` parameter:
`GetScopeData for Isolate` routes through `get_root_mut`, which unwinds the
whole stack back to the root before pushing. -/
def handleScopeNewFromIsolate (s : ScopeState) : M ScopeState :=
  match getRootMut s with
  | .error e => .error e
  | .ok s1 => newHandleScopeData s1

/-- Embeds `ScopeData::get_current_context`: return the cached context if the
`context` cell is populated, otherwise ask the isolate
(`v8__Isolate__GetCurrentContext`, i.e. the most recently entered context)
and populate the cache. -/
def getCurrentContextData (s : ScopeState) : Option Nat × ScopeState :=
  match s.frames with
  | [] => (Option.none, s)
  | top :: rest =>
    match top.context with
    | Option.some c => (Option.some c, s)
    | Option.none =>
      let c := s.raw.enteredContexts.head?
      (c, { s with frames := { top with context := c } :: rest })

/-- Extracts the `zombie` flag of a status (meaningful for `Current` and
`Shadowed`). -/
def zombieFlag : ScopeStatus → Bool
  | .Free => false
  | .Current z => z
  | .Shadowed z => z

/-- Is the status a `Current` one? -/
def isCurrent : ScopeStatus → Bool
  | .Current _ => true
  | _ => false

/-- Is the status a `Shadowed` one? -/
def isShadowed : ScopeStatus → Bool
  | .Shadowed _ => true
  | _ => false

/-- Shape invariant of the scope stack: nonempty, the top frame is `Current`,
every other frame is `Shadowed`. -/
def statusesWF (fs : List Frame) : Bool :=
  match fs with
  | [] => false
  | top :: rest => isCurrent top.status && rest.all fun g => isShadowed g.status

/-- Full state invariant: well-shaped statuses, and the isolate slot
`current_scope_data` points at the top frame (the from-bottom index of
the top frame is `frames.length - 1`). -/
def Inv (s : ScopeState) : Prop :=
  statusesWF s.frames = true ∧ s.current + 1 = s.frames.length

instance (s : ScopeState) : Decidable (Inv s) := by
  unfold Inv; infer_instance

/-- Shape of a successful push: the parent (old top) is flagged `Shadowed`,
a single new frame with status `Current { zombie: false }` is placed on top,
the `current_scope_data` slot of the isolate points at the new top, and the
invariant is preserved. -/
def PushShape (s s2 : ScopeState) : Prop :=
  ∃ child top rest z, s.frames = top :: rest ∧ top.status = .Current z ∧
    s2.frames = child :: { top with status := .Shadowed z } :: rest ∧
    child.status = .Current false ∧
    s2.current = s.frames.length ∧ Inv s2

/-- Shape of a successful pop (`exit_scope`): exactly the top frame is
removed, the parent goes from `Shadowed` back to `Current`, the raw
destructor of the popped frame runs, `current_scope_data` points at the
parent, and the invariant is preserved. -/
def PopShape (s s2 : ScopeState) : Prop :=
  ∃ top parent below z, s.frames = top :: parent :: below ∧
    parent.status = .Shadowed z ∧
    s2.frames = { parent with status := .Current z } :: below ∧
    s2.raw = destructStsd s.raw top.stsd ∧
    s2.current = below.length ∧ Inv s2

/-!
Capability-typed scope constructor rules: an embedding of the public scope
types of scope.rs (lifetimes erased) and of the associated-type functions in
the `param` module (`NewContextScope`, `NewHandleScope`,
`NewEscapableHandleScope`, `NewTryCatch`).
-/

/-- The public scope types of scope.rs with lifetimes erased.  The `ctx` flag
of `handleScope` / `escapableHandleScope` records whether the type parameter
`C` is `Context` (true) or `()` (false). -/
inductive RustScopeType
  | isolate
  | handleScope (ctx : Bool)
  | escapableHandleScope (ctx : Bool)
  | contextScope (p : RustScopeType)
  | tryCatch (p : RustScopeType)
  | callbackScope
  deriving DecidableEq

/-- The capability set a scope type grants, read off from the `Deref`/`AsRef`
chains of scope.rs: can it mint local handles, call `escape`, inspect a
caught exception (`TryCatch` methods), and does it certify an entered
`Context`. -/
structure Caps where
  handles : Bool
  escape : Bool
  tryCatch : Bool
  context : Bool
  deriving DecidableEq

/-- Capability set of each scope type.  A ContextScope derefs to its type
parameter `P`; a TryCatch derefs to `P` and additionally offers the
TryCatch methods; a CallbackScope derefs to a Context-carrying
HandleScope. -/
def caps : RustScopeType → Caps
  | .isolate => ⟨false, false, false, false⟩
  | .handleScope c => ⟨true, false, false, c⟩
  | .escapableHandleScope c => ⟨true, true, false, c⟩
  | .contextScope p => caps p
  | .tryCatch p => { caps p with tryCatch := true }
  | .callbackScope => ⟨true, false, false, true⟩

/-- Pointwise inclusion of capability sets. -/
def capsLe (a b : Caps) : Bool :=
  (!a.handles || b.handles) && (!a.escape || b.escape) &&
  (!a.tryCatch || b.tryCatch) && (!a.context || b.context)

/-- Inclusion of capability sets on every axis except exception inspection. -/
def capsLeExceptTryCatch (a b : Caps) : Bool :=
  (!a.handles || b.handles) && (!a.escape || b.escape) &&
  (!a.context || b.context)

/-- Embeds the `param::NewContextScope` associated-type function: the scope
type `ContextScope::new(parent, context)` returns for each parent type
(`Option.none` when the trait is not implemented for that parent). -/
def newContextScopeType : RustScopeType → Option RustScopeType
  | .contextScope p => Option.some (.contextScope p)
  | .handleScope _ => Option.some (.contextScope (.handleScope true))
  | .escapableHandleScope _ =>
    Option.some (.contextScope (.escapableHandleScope true))
  | .tryCatch p => newContextScopeType p
  | .callbackScope => Option.some (.contextScope (.handleScope true))
  | .isolate => Option.none

/-- Embeds the `param::NewHandleScope` associated-type function. -/
def newHandleScopeType : RustScopeType → Option RustScopeType
  | .isolate => Option.some (.handleScope false)
  | .contextScope p => newHandleScopeType p
  | .handleScope c => Option.some (.handleScope c)
  | .escapableHandleScope c => Option.some (.escapableHandleScope c)
  | .tryCatch p => newHandleScopeType p
  | .callbackScope => Option.some (.handleScope true)

/-- Embeds the `param::NewEscapableHandleScope` associated-type function. -/
def newEscapableHandleScopeType : RustScopeType → Option RustScopeType
  | .contextScope p => newEscapableHandleScopeType p
  | .handleScope c => Option.some (.escapableHandleScope c)
  | .escapableHandleScope c => Option.some (.escapableHandleScope c)
  | .tryCatch p => newEscapableHandleScopeType p
  | .callbackScope => Option.some (.escapableHandleScope true)
  | .isolate => Option.none

/-- Embeds the `param::NewTryCatch` associated-type function. -/
def newTryCatchType : RustScopeType → Option RustScopeType
  | .contextScope p => newTryCatchType p
  | .handleScope c => Option.some (.tryCatch (.handleScope c))
  | .escapableHandleScope c => Option.some (.tryCatch (.escapableHandleScope c))
  | .tryCatch p => Option.some (.tryCatch p)
  | .callbackScope => Option.some (.tryCatch (.handleScope true))
  | .isolate => Option.none

/-- The scope types producible by a sequence of public scope constructors,
starting from an isolate or from a callback entry point. -/
inductive ReachableScopeType : RustScopeType → Prop
  | isolate : ReachableScopeType .isolate
  | callback : ReachableScopeType .callbackScope
  | ctxStep {p c : RustScopeType} : ReachableScopeType p →
      newContextScopeType p = Option.some c → ReachableScopeType c
  | hsStep {p c : RustScopeType} : ReachableScopeType p →
      newHandleScopeType p = Option.some c → ReachableScopeType c
  | ehsStep {p c : RustScopeType} : ReachableScopeType p →
      newEscapableHandleScopeType p = Option.some c → ReachableScopeType c
  | tcStep {p c : RustScopeType} : ReachableScopeType p →
      newTryCatchType p = Option.some c → ReachableScopeType c

/-- Exhaustive list of the scope types reachable through the constructors. -/
def reachableTypes : List RustScopeType :=
  [.isolate, .callbackScope,
   .handleScope false, .handleScope true,
   .escapableHandleScope false, .escapableHandleScope true,
   .contextScope (.handleScope true),
   .contextScope (.escapableHandleScope true),
   .tryCatch (.handleScope false), .tryCatch (.handleScope true),
   .tryCatch (.escapableHandleScope false),
   .tryCatch (.escapableHandleScope true)]

/-!
Isolate matching on handle creation and context entry: an embedding of
`handle.rs` (`HostIsolate`, `Local::new`) and of the check at the top of
`ContextScope::new` in scope.rs.
-/

/-- Embeds `handle::HostIsolate`.  Isolate pointers are modelled as `Nat`. -/
inductive HostIsolate
  | scope
  | ptr (p : Nat)
  | disposed
  deriving DecidableEq

/-- Embeds `HostIsolate::match_isolate`, arm for arm. -/
def matchIsolate : HostIsolate → HostIsolate → Bool
  | .scope, .scope => true
  | .ptr p1, .ptr p2 => p1 == p2
  | .disposed, _ => false
  | _, .disposed => false
  | _, _ => true

/-- Embeds `HostIsolate::apply_scope`. -/
def applyScope (h : HostIsolate) (scopeIso : Nat) : HostIsolate :=
  match h with
  | .scope => .ptr scopeIso
  | _ => h

/-- The flavours of handle that can be passed to `Local::new` (implementors
of the `Handle` trait): a `Local`, a live `Global`, or a `Global` whose
isolate has been disposed. -/
inductive HandleKind
  | localHandle
  | globalHandle
  | disposedGlobalHandle
  deriving DecidableEq

/-- A handle together with the isolate that actually owns the object it
references (ground truth the Rust values do not all carry at runtime). -/
structure ModelHandle where
  isolate : Nat
  kind : HandleKind
  deriving DecidableEq

/-- Embeds the `HostIsolate` component of `Handle::get_raw_info`: a `Local`
reports `HostIsolate::Scope` (it carries no isolate at runtime), a `Global`
reports its stored isolate pointer, a disposed `Global` reports
`HostIsolate::Disposed`. -/
def getRawInfo (h : ModelHandle) : HostIsolate :=
  match h.kind with
  | .localHandle => .scope
  | .globalHandle => .ptr h.isolate
  | .disposedGlobalHandle => .disposed

/-- Embeds the isolate check of `Local::new`: `assert!` that the scope
isolate matches the reported isolate of the handle (after `apply_scope`).  Returns
the error on assertion failure. -/
def localNewCheck (scopeIsolate : Nat) (h : ModelHandle) : M Unit :=
  if matchIsolate (.ptr scopeIsolate) (applyScope (getRawInfo h) scopeIsolate)
  then .ok () else .error "assertion failed: handle host isolate mismatch"

/-- Embeds the check at the top of `ContextScope::new`: panic when the
parent scope and the `Context` do not belong to the same isolate. -/
def contextScopeNewCheck (scopeIsolate contextIsolate : Nat) : M Unit :=
  if scopeIsolate ≠ contextIsolate then
    .error "scope and Context do not belong to the same Isolate"
  else .ok ()

/-!
Local handles and the null-to-None mapping of TryCatch accessors: an
embedding of `Local::from_raw` from handle.rs and of the TryCatch methods
that route raw pointers through `HandleScope::cast_local`.
-/

/-- Model of a `Local`: a raw address that is non-null by
construction (`Local` wraps a `NonNull<T>`). -/
def LocalAddr : Type := { n : Nat // n ≠ 0 }

/-- Embeds `Local::from_raw`: a null raw pointer becomes `None`, any other
address becomes a `Local` wrapping it. -/
def localFromRaw (ptr : Nat) : Option LocalAddr :=
  if h : ptr = 0 then Option.none else Option.some ⟨ptr, h⟩

/-- Embeds `TryCatch::exception` as a function of the raw pointer returned
by `v8__TryCatch__Exception`: the result is routed through `cast_local`,
i.e. `Local::from_raw`. -/
def tryCatchException (rawResult : Nat) : Option LocalAddr :=
  localFromRaw rawResult

/-- Embeds `TryCatch::message` as a function of the raw pointer returned by
`v8__TryCatch__Message`. -/
def tryCatchMessage (rawResult : Nat) : Option LocalAddr :=
  localFromRaw rawResult

/-- Embeds `TryCatch::stack_trace` as a function of the raw pointer returned
by `v8__TryCatch__StackTrace`. -/
def tryCatchStackTrace (rawResult : Nat) : Option LocalAddr :=
  localFromRaw rawResult

/-- Embeds `TryCatch::rethrow` as a function of the raw pointer returned by
`v8__TryCatch__ReThrow`. -/
def tryCatchRethrow (rawResult : Nat) : Option LocalAddr :=
  localFromRaw rawResult


/-- Unfolding step of `popZombies`: when the top frame is a zombie, one
`exit_scope` runs and popping continues. -/
theorem popZombies_step {s s1 : ScopeState} {n : Nat} {top : Frame} {rest : List Frame}
    (hframes : s.frames = top :: rest) (hstatus : top.status = ScopeStatus.Current true)
    (hexit : exitTop s = .ok s1) :
    popZombies s (n + 1) = popZombies s1 n := by
  obtain ⟨fr, raw, cur⟩ := s
  simp only at hframes
  subst hframes
  simp only [popZombies, hstatus]
  rw [hexit]

/-- Unfolding step of `popZombies`: reaching a live (non-zombie) current
frame is the fatal usage fault of `try_exit_scope`. -/
theorem popZombies_live_top {s : ScopeState} {n : Nat} {top : Frame} {rest : List Frame}
    (hframes : s.frames = top :: rest) (hstatus : top.status = ScopeStatus.Current false) :
    popZombies s (n + 1) = .error "active scope cannot be dropped" := by
  obtain ⟨fr, raw, cur⟩ := s
  simp only at hframes
  subst hframes
  simp only [popZombies, hstatus]

/-- Collapsing a block of zombie frames: popping `zs.length + 1` frames
consisting of a zombie top `a` and shadowed zombies `zs`, sitting on a live
shadowed frame `f`, removes exactly those frames, runs their raw destructors
top-down, and re-activates `f`. -/
theorem popZombies_ok (a : Frame) (zs : List Frame) (f : Frame)
    (below : List Frame) (raw : RawIsolate) (cur : Nat)
    (ha : a.status = .Current true)
    (hzs : ∀ g ∈ zs, g.status = .Shadowed true)
    (hf : f.status = .Shadowed false) :
    popZombies ⟨a :: (zs ++ f :: below), raw, cur⟩ (zs.length + 1) =
      .ok ⟨{ f with status := .Current false } :: below,
           (a :: zs).foldl (fun r g => destructStsd r g.stsd) raw,
           below.length⟩ := by
  induction zs generalizing a raw cur with
  | nil =>
    simp [popZombies, ha, exitTop, hf, List.foldl]
  | cons b zs ih =>
    have hb : b.status = .Shadowed true := hzs b (by simp)
    have hzs2 : ∀ g ∈ zs, g.status = .Shadowed true := fun g hg => hzs g (by simp [hg])
    have hexit : exitTop ⟨a :: (b :: zs ++ f :: below), raw, cur⟩ =
        .ok ⟨{ b with status := .Current true } :: (zs ++ f :: below),
             destructStsd raw a.stsd, (zs ++ f :: below).length⟩ := by
      simp [exitTop, hb]
    have step := ih { b with status := .Current true }
      (destructStsd raw a.stsd) ((zs ++ f :: below)).length rfl hzs2
    have hlen : (b :: zs).length + 1 = (zs.length + 1) + 1 := by simp
    rw [hlen, popZombies_step rfl ha hexit, step]
    simp [List.foldl]

/-- Popping a block of frames that contains a still-live scope fails with
the `try_exit_scope` panic and pops nothing past it. -/
theorem popZombies_err (a : Frame) (zs : List Frame) (tl : List Frame)
    (raw : RawIsolate) (cur : Nat)
    (ha : isCurrent a.status = true)
    (hzs : ∀ g ∈ zs, isShadowed g.status = true)
    (hlive : ∃ g ∈ a :: zs, zombieFlag g.status = false) :
    popZombies ⟨a :: (zs ++ tl), raw, cur⟩ (zs.length + 1) =
      .error "active scope cannot be dropped" := by
  induction zs generalizing a raw cur with
  | nil =>
    obtain ⟨g, hg, hflag⟩ := hlive
    simp at hg
    subst hg
    cases hst : g.status with
    | Free => rw [hst] at ha; simp [isCurrent] at ha
    | Shadowed z => rw [hst] at ha; simp [isCurrent] at ha
    | Current z =>
      rw [hst] at hflag
      simp [zombieFlag] at hflag
      subst hflag
      exact popZombies_live_top rfl hst
  | cons b zs ih =>
    cases hst : a.status with
    | Free => rw [hst] at ha; simp [isCurrent] at ha
    | Shadowed z => rw [hst] at ha; simp [isCurrent] at ha
    | Current z =>
      cases z with
      | false => exact popZombies_live_top rfl hst
      | true =>
        have hb : isShadowed b.status = true := hzs b (by simp)
        obtain ⟨zb, hzb⟩ : ∃ zb, b.status = .Shadowed zb := by
          cases hsb : b.status with
          | Shadowed zb => exact ⟨zb, rfl⟩
          | Free => rw [hsb] at hb; simp [isShadowed] at hb
          | Current zb => rw [hsb] at hb; simp [isShadowed] at hb
        have hexit : exitTop ⟨a :: (b :: zs ++ tl), raw, cur⟩ =
            .ok ⟨{ b with status := .Current zb } :: (zs ++ tl),
                 destructStsd raw a.stsd, (zs ++ tl).length⟩ := by
          simp [exitTop, hzb]
        have hzs2 : ∀ g ∈ zs, isShadowed g.status = true := fun g hg => hzs g (by simp [hg])
        have hlive2 : ∃ g ∈ ({ b with status := ScopeStatus.Current zb } : Frame) :: zs,
            zombieFlag g.status = false := by
          obtain ⟨g, hg, hflag⟩ := hlive
          rcases List.mem_cons.mp hg with rfl | hg2
          · rw [hst] at hflag
            simp [zombieFlag] at hflag
          · rcases List.mem_cons.mp hg2 with rfl | hg3
            · refine ⟨{ g with status := ScopeStatus.Current zb }, by simp, ?_⟩
              rw [hzb] at hflag
              simpa [zombieFlag] using hflag
            · exact ⟨g, by simp [hg3], hflag⟩
        have step := ih { b with status := .Current zb } (destructStsd raw a.stsd)
          ((zs ++ tl)).length rfl hzs2 hlive2
        have hlen : (b :: zs).length + 1 = (zs.length + 1) + 1 := by simp
        rw [hlen, popZombies_step rfl hst hexit, step]

/-- Shape of any successful `popZombies` run: either nothing was popped, or
the stack was truncated to the frame at depth `n`, which was `Shadowed` and
is now `Current`. -/
theorem popZombies_shape (n : Nat) (s s2 : ScopeState) (h : popZombies s n = .ok s2) :
    (n = 0 ∧ s2 = s) ∨
    ∃ z f below, s.frames.drop n = f :: below ∧ f.status = .Shadowed z ∧
      s2.frames = { f with status := .Current z } :: below := by
  induction n generalizing s with
  | zero =>
    left
    refine ⟨rfl, ?_⟩
    simpa [popZombies] using h.symm
  | succ n ih =>
    right
    obtain ⟨fr, raw, cur⟩ := s
    cases fr with
    | nil => simp [popZombies] at h
    | cons top rest =>
      cases hst : top.status with
      | Free => simp [popZombies, hst] at h
      | Shadowed z => simp [popZombies, hst] at h
      | Current z =>
        cases z with
        | false => simp [popZombies, hst] at h
        | true =>
          simp only [popZombies, hst] at h
          cases rest with
          | nil => simp [exitTop] at h
          | cons parent below0 =>
            cases hps : parent.status with
            | Free => simp [exitTop, hps] at h
            | Current z2 => simp [exitTop, hps] at h
            | Shadowed z2 =>
              simp only [exitTop, hps] at h
              rcases ih _ h with ⟨rfl, rfl⟩ | ⟨z3, f, below, hdrop, hstf, hfr2⟩
              · exact ⟨z2, parent, below0, by simp, hps, by simp⟩
              · cases n with
                | zero =>
                  simp at hdrop
                  rw [← hdrop.1] at hstf
                  simp at hstf
                | succ m =>
                  refine ⟨z3, f, below, ?_, hstf, hfr2⟩
                  simpa using hdrop
  


/-- C1: releasing (dropping) a handle-bearing scope (HandleScope or
EscapableHandleScope) does not pop its frame; it only flags the frame as a
zombie (stale), leaving the stack and raw state untouched.  The frame is
popped exactly when an operation next touches a live ancestor scope: that
touch pops exactly the stale frames above the ancestor and no others, running
their raw destructors. -/
theorem c1_deferred_zombie_drop :
    (∀ (top : Frame) (rest : List Frame) (raw : RawIsolate) (cur : Nat),
       top.status = .Current false → top.stsd.handleBearing = true →
       scopeDrop ⟨top :: rest, raw, cur⟩ 0 =
         .ok ⟨{ top with status := .Current true } :: rest, raw, cur⟩) ∧
    (∀ (a : Frame) (zs : List Frame) (f : Frame) (below : List Frame)
       (raw : RawIsolate) (cur : Nat),
       a.status = .Current true → (∀ g ∈ zs, g.status = .Shadowed true) →
       f.status = .Shadowed false →
       tryActivateScope ⟨a :: (zs ++ f :: below), raw, cur⟩ (zs.length + 1) =
         .ok ⟨{ f with status := .Current false } :: below,
              (a :: zs).foldl (fun r g => destructStsd r g.stsd) raw,
              below.length⟩) := by
  constructor
  · intro top rest raw cur h1 h2
    simp [scopeDrop, tryActivateScope, getFrameAt, h1, notifyScopeDropped, h2]
  · intro a zs f below raw cur ha hzs hf
    have hget : (a :: (zs ++ f :: below)).get? (zs.length + 1) = some f := by
      simp only [List.get?_cons_succ]
      rw [List.get?_append_right (Nat.le_refl _)]
      simp
    simp only [tryActivateScope, getFrameAt, hget, hf]
    exact popZombies_ok a zs f below raw cur ha hzs hf

/-- Characterization of a successful frame lookup. -/
theorem getFrameAt_ok {s : ScopeState} {d : Nat} {f : Frame}
    (h : getFrameAt s d = .ok f) : s.frames.get? d = some f := by
  unfold getFrameAt at h
  cases hg : s.frames.get? d with
  | none => rw [hg] at h; exact Except.noConfusion h
  | some g =>
    rw [hg] at h
    injection h with h
    rw [h]

/-- On a well-shaped stack, a successful `try_activate_scope` always leaves
the touched frame as the live (`Current`, non-zombie) top of the stack. -/
theorem tryActivate_top (s s1 : ScopeState) (d : Nat)
    (hwf : statusesWF s.frames = true)
    (hact : tryActivateScope s d = .ok s1) :
    ∃ top rest, s1.frames = top :: rest ∧ top.status = .Current false := by
  cases hget : getFrameAt s d with
  | error e =>
    rw [tryActivateScope, hget] at hact
    exact Except.noConfusion hact
  | ok f =>
    have hfget : s.frames.get? d = some f := getFrameAt_ok hget
    rw [tryActivateScope, hget] at hact
    dsimp only at hact
    cases hfs : f.status with
    | Free => rw [hfs] at hact; exact Except.noConfusion hact
    | Current z =>
      cases z with
      | true => rw [hfs] at hact; exact Except.noConfusion hact
      | false =>
        rw [hfs] at hact
        injection hact with hact
        subst hact
        cases hfr : s.frames with
        | nil => rw [hfr] at hfget; exact Option.noConfusion hfget
        | cons top rest =>
          cases d with
          | zero =>
            rw [hfr] at hfget
            simp at hfget
            exact ⟨top, rest, rfl, by rw [hfget, hfs]⟩
          | succ k =>
            exfalso
            rw [hfr] at hfget hwf
            have hmem : f ∈ rest := List.get?_mem (by simpa using hfget)
            simp only [statusesWF, Bool.and_eq_true, List.all_eq_true] at hwf
            have := hwf.2 f hmem
            rw [hfs] at this
            simp [isShadowed] at this
    | Shadowed z =>
      cases z with
      | true => rw [hfs] at hact; exact Except.noConfusion hact
      | false =>
        rw [hfs] at hact
        rcases popZombies_shape d s s1 hact with ⟨hd0, hs1⟩ | ⟨z2, f2, below, hdrop, hstf, hfr1⟩
        · exfalso
          subst hd0
          cases hfr : s.frames with
          | nil => rw [hfr] at hfget; exact Option.noConfusion hfget
          | cons top rest =>
            rw [hfr] at hfget hwf
            simp at hfget
            simp only [statusesWF, Bool.and_eq_true] at hwf
            rw [hfget, hfs] at hwf
            simp [isCurrent] at hwf
        · have hsame : s.frames.get? d = some f2 := by
            have h0 : (s.frames.drop d).get? 0 = some f2 := by rw [hdrop]; rfl
            simpa [List.get?_eq_getElem?, List.getElem?_drop] using h0
          rw [hfget] at hsame
          injection hsame with hsame
          rw [← hsame, hfs] at hstf
          injection hstf with hz
          exact ⟨_, below, hfr1, by rw [← hz]⟩

/-- C2: calling `escape()` a second time on the same EscapableHandleScope
instance panics with "EscapableHandleScope::escape() called twice"; the
one-shot escape slot can be consumed at most once. -/
theorem c2_double_escape (s s2 : ScopeState) (d v w : Nat) (loc : EscapeSlotLoc)
    (hwf : statusesWF s.frames = true)
    (h : escapeScope s d v = .ok (s2, loc)) :
    escapeScope s2 0 w = .error "EscapableHandleScope::escape() called twice" := by
  cases hact : tryActivateScope s d with
  | error e => rw [escapeScope, hact] at h; exact Except.noConfusion h
  | ok s1 =>
    obtain ⟨top, r1, hfr1, htop⟩ := tryActivate_top s s1 d hwf hact
    rw [escapeScope, hact] at h
    dsimp only at h
    rw [hfr1] at h
    dsimp only at h
    cases hslot : top.escapeSlot with
    | none => rw [hslot] at h; exact Except.noConfusion h
    | some j =>
      rw [hslot] at h
      simp only [List.length_cons, Nat.add_sub_cancel] at h
      cases hga : getFrameAt s1 (r1.length - j) with
      | error e => rw [hga] at h; exact Except.noConfusion h
      | ok owner =>
        rw [hga] at h
        dsimp only at h
        cases howner : owner.stsd with
        | noData => rw [howner] at h; exact Except.noConfusion h
        | contextScope c => rw [howner] at h; exact Except.noConfusion h
        | handleScope => rw [howner] at h; exact Except.noConfusion h
        | tryCatch => rw [howner] at h; exact Except.noConfusion h
        | escapableHandleScope o =>
          cases o with
          | none => rw [howner] at h; exact Except.noConfusion h
          | some loc0 =>
            rw [howner] at h
            dsimp only at h
            set ow : Frame :=
              { owner with stsd := Stsd.escapableHandleScope Option.none } with how
            set P : Nat := r1.length - j with hPdef
            injection h with h
            rw [Prod.mk.injEq] at h
            obtain ⟨hs2, hloc⟩ := h
            subst hs2
            have hov : (top :: r1).get? P = some owner := by
              have hx := getFrameAt_ok hga
              rwa [hfr1] at hx
            obtain ⟨hlt, -⟩ := List.get?_eq_some.mp hov
            have hget2 : ((top :: r1).set P ow).get? P = some ow :=
              List.get?_set_eq_of_lt _ hlt
            obtain ⟨h2, t2, hnf, hh2st, hh2slot⟩ :
                ∃ h2 t2, (top :: r1).set P ow = h2 :: t2 ∧
                  h2.status = ScopeStatus.Current false ∧
                  h2.escapeSlot = Option.some j := by
              cases hP : P with
              | zero =>
                rw [hP] at hov
                have hto : top = owner := by simpa using hov
                refine ⟨ow, r1, rfl, ?_, ?_⟩
                · rw [how]; simp [← hto, htop]
                · rw [how]; simp [← hto, hslot]
              | succ p => exact ⟨top, r1.set p ow, rfl, htop, hslot⟩
            have hact2 : tryActivateScope
                { frames := (top :: r1).set P ow,
                  raw := writeSlot s1.raw loc0 v, current := s1.current } 0 =
                .ok { frames := (top :: r1).set P ow,
                      raw := writeSlot s1.raw loc0 v, current := s1.current } := by
              rw [tryActivateScope, getFrameAt]
              dsimp only
              rw [hnf]
              simp [hh2st]
            rw [escapeScope, hact2]
            dsimp only
            rw [hnf]
            dsimp only
            rw [hh2slot]
            dsimp only
            have hc : t2.length + 1 = r1.length + 1 := by
              have hx := congrArg List.length hnf
              simp at hx
              omega
            have hlen2 : t2.length + 1 - 1 - j = P := by omega
            simp only [List.length_cons]
            rw [hlen2]
            have hga2 : getFrameAt
                { frames := h2 :: t2, raw := writeSlot s1.raw loc0 v,
                  current := s1.current } P = .ok ow := by
              rw [getFrameAt]
              dsimp only
              rw [← hnf, hget2]
            rw [hga2]

/-- C7: releasing (dropping) a non-handle-bearing scope (ContextScope,
TryCatch, CallbackScope) pops its frame immediately: the scope-type-specific
state is destroyed at drop time, the current-scope pointer of the isolate is
restored to the parent right away, the raw context is exited on pop for a
ContextScope, and the raw trap is unregistered for a TryCatch. -/
theorem c7_immediate_pop (top parent : Frame) (below : List Frame)
    (raw : RawIsolate) (cur : Nat) (z : Bool)
    (h1 : top.status = .Current false) (h2 : parent.status = .Shadowed z)
    (h3 : top.stsd.handleBearing = false) :
    scopeDrop ⟨top :: parent :: below, raw, cur⟩ 0 =
      .ok ⟨{ parent with status := .Current z } :: below,
           destructStsd raw top.stsd, below.length⟩ ∧
    (∀ ctx, top.stsd = .contextScope ctx →
       (destructStsd raw top.stsd).enteredContexts = raw.enteredContexts.tail ∧
       (destructStsd raw top.stsd).blocks = raw.blocks) ∧
    (top.stsd = .tryCatch →
       (destructStsd raw top.stsd).traps = raw.traps - 1) := by
  refine ⟨?_, ?_, ?_⟩
  · simp [scopeDrop, tryActivateScope, getFrameAt, h1, notifyScopeDropped, h3,
      exitTop, h2]
  · intro ctx hc
    simp [hc, destructStsd]
  · intro hc
    simp [hc, destructStsd]

/-- C3: when an EscapableHandleScope is created, its escape slot is
allocated in the parent handle block (block index `bs.length`, strictly below
the own block of the child at index `bs.length + 1`), pre-filled with the
undefined placeholder, strictly before the own raw handle scope of the child opens
its block; a single call to `escape(value)` overwrites the contents of that slot
with the raw representation of the value and returns a handle viewing that same
slot storage (the returned handle is the location of the slot in the parent
block, which outlives the child scope). -/
theorem c3_escape_slot (s s2x : ScopeState) (top : Frame) (rest : List Frame)
    (bs : List (List Nat)) (blk : List Nat)
    (hfr : s.frames = top :: rest) (hbl : s.raw.blocks = bs ++ [blk])
    (hok : newEscapableHandleScopeData s = .ok s2x) :
    (∃ child rest2, s2x.frames = child :: rest2 ∧
       child.stsd = .escapableHandleScope
         (Option.some ⟨bs.length, blk.length⟩) ∧
       child.escapeSlot = Option.some s.frames.length ∧
       s2x.raw.blocks = (bs ++ [blk ++ [undefinedAddr]]) ++ [[]]) ∧
    (∀ (raw : RawIsolate) (loc : EscapeSlotLoc) (v : Nat) (b2 : List Nat),
       raw.blocks.get? loc.block = some b2 → loc.idx < b2.length →
       readSlot (writeSlot raw loc v) loc = Option.some v) ∧
    (∀ (child : Frame) (rest2 : List Frame) (raw2 : RawIsolate) (cur2 v : Nat)
       (loc : EscapeSlotLoc),
       child.status = .Current false →
       child.escapeSlot = Option.some rest2.length →
       child.stsd = .escapableHandleScope (Option.some loc) →
       escapeScope ⟨child :: rest2, raw2, cur2⟩ 0 v =
         .ok (⟨{ child with stsd := .escapableHandleScope Option.none } :: rest2,
               writeSlot raw2 loc v, cur2⟩, loc)) := by
  refine ⟨?_, ?_, ?_⟩
  · obtain ⟨fr, raw, cur⟩ := s
    simp only at hfr hbl
    subst hfr
    cases hst : top.status with
    | Free =>
      rw [newEscapableHandleScopeData, newScopeData] at hok
      dsimp only at hok
      rw [hst] at hok
      exact Except.noConfusion hok
    | Shadowed z =>
      rw [newEscapableHandleScopeData, newScopeData] at hok
      dsimp only at hok
      rw [hst] at hok
      exact Except.noConfusion hok
    | Current z =>
      rw [newEscapableHandleScopeData, newScopeData] at hok
      dsimp only at hok
      rw [hst] at hok
      dsimp only at hok
      rw [rawLocalNew, hbl] at hok
      simp only [List.getLast?_concat, List.dropLast_concat, List.length_append,
        List.length_cons, List.length_nil] at hok
      injection hok with hok
      refine ⟨_, _, by rw [← hok], ?_, ?_, by rw [← hok]⟩
      · simp
      · simp
  · intro raw loc v b2 hb hi
    have hblt : loc.block < raw.blocks.length := by
      obtain ⟨hlt, -⟩ := List.get?_eq_some.mp hb
      exact hlt
    unfold writeSlot readSlot
    rw [List.get?_set_eq_of_lt _ (by simpa using hblt)]
    rw [hb]
    dsimp only [Option.getD, Option.bind]
    rw [List.get?_set_eq_of_lt _ (by simpa using hi)]
  · intro child rest2 raw2 cur2 v loc hst hslot hstsd
    have hact : tryActivateScope ⟨child :: rest2, raw2, cur2⟩ 0 =
        .ok ⟨child :: rest2, raw2, cur2⟩ := by
      simp [tryActivateScope, getFrameAt, hst]
    rw [escapeScope, hact]
    dsimp only
    rw [hslot]
    dsimp only
    have hpos : (child :: rest2).length - 1 - rest2.length = 0 := by
      simp
    simp only [List.length_cons] at hpos ⊢
    rw [hpos]
    rw [show getFrameAt ⟨child :: rest2, raw2, cur2⟩ 0 = .ok child from by
      rw [getFrameAt]; rfl]
    dsimp only
    rw [hstsd]
    simp [List.set, hslot]

/-- C6: any attempt to unwind or exit the scope stack past a still-live
scope panics: constructing a HandleScope directly from the Isolate (which
unwinds to the root) while a live scope is on the stack fails with the
active-scope fault, and touching a scope shadowed by a
newer still-live scope fails the same way instead of silently popping the
live scope. -/
theorem c6_live_scope_unwind_panics :
    (∀ (a : Frame) (zs : List Frame) (rootf : Frame) (raw : RawIsolate)
       (cur : Nat),
       isCurrent a.status = true → (∀ g ∈ zs, isShadowed g.status = true) →
       (∃ g ∈ a :: zs, zombieFlag g.status = false) →
       handleScopeNewFromIsolate ⟨a :: (zs ++ [rootf]), raw, cur⟩ =
         .error "active scope cannot be dropped") ∧
    (∀ (a : Frame) (zs : List Frame) (f : Frame) (below : List Frame)
       (raw : RawIsolate) (cur : Nat),
       isCurrent a.status = true → (∀ g ∈ zs, isShadowed g.status = true) →
       f.status = .Shadowed false →
       (∃ g ∈ a :: zs, zombieFlag g.status = false) →
       tryActivateScope ⟨a :: (zs ++ f :: below), raw, cur⟩ (zs.length + 1) =
         .error "active scope cannot be dropped") := by
  constructor
  · intro a zs rootf raw cur ha hzs hlive
    obtain ⟨z, hz⟩ : ∃ z, a.status = .Current z := by
      cases h : a.status with
      | Current z => exact ⟨z, rfl⟩
      | Free => rw [h] at ha; simp [isCurrent] at ha
      | Shadowed z => rw [h] at ha; simp [isCurrent] at ha
    rw [handleScopeNewFromIsolate, getRootMut]
    dsimp only
    rw [hz]
    dsimp only
    have hlen : (a :: (zs ++ [rootf])).length - 1 = zs.length + 1 := by simp
    rw [hlen, popZombies_err a zs [rootf] raw cur ha hzs hlive]
  · intro a zs f below raw cur ha hzs hf hlive
    have hget : (a :: (zs ++ f :: below)).get? (zs.length + 1) = some f := by
      simp only [List.get?_cons_succ]
      rw [List.get?_append_right (Nat.le_refl _)]
      simp
    rw [tryActivateScope, getFrameAt]
    dsimp only
    rw [hget]
    dsimp only
    rw [hf]
    dsimp only
    exact popZombies_err a zs (f :: below) raw cur ha hzs hlive

/-- C8: the scope stack is strictly LIFO.  Every constructor push adds
exactly one frame at the top, makes it the current scope data of the isolate and
marks the parent shadowed; `exit_scope` removes exactly the top frame and
restores the parent as current; in every case the current-scope pointer ends
up at the most recently pushed, not-yet-popped frame (the invariant `Inv` is
preserved). -/
theorem c8_lifo_push_pop (s : ScopeState) (h : Inv s) :
    (∀ (ctx : Nat) (s2 : ScopeState),
       newContextScopeData s ctx = .ok s2 → PushShape s s2) ∧
    (∀ s2, newHandleScopeData s = .ok s2 → PushShape s s2) ∧
    (∀ s2, newEscapableHandleScopeData s = .ok s2 → PushShape s s2) ∧
    (∀ s2, newTryCatchData s = .ok s2 → PushShape s s2) ∧
    (∀ (mctx : Option Nat) (s2 : ScopeState),
       newCallbackScopeData s mctx = .ok s2 → PushShape s s2) ∧
    (∀ s2, exitTop s = .ok s2 → PopShape s s2) := by
  obtain ⟨hwf, hcur⟩ := h
  obtain ⟨fr, raw, cur⟩ := s
  simp only at hwf hcur
  cases fr with
  | nil => simp [statusesWF] at hwf
  | cons top rest =>
    simp only [statusesWF, Bool.and_eq_true, List.all_eq_true] at hwf
    obtain ⟨hc, hsh⟩ := hwf
    obtain ⟨z, hz⟩ : ∃ z, top.status = .Current z := by
      cases h : top.status with
      | Current z => exact ⟨z, rfl⟩
      | Free => rw [h] at hc; simp [isCurrent] at hc
      | Shadowed z => rw [h] at hc; simp [isCurrent] at hc
    have hinv2 : ∀ child : Frame, child.status = .Current false →
        Inv ⟨child :: { top with status := .Shadowed z } :: rest, raw, cur⟩ →
        True := fun _ _ _ => trivial
    refine ⟨?_, ?_, ?_, ?_, ?_, ?_⟩
    · intro ctx s2 hok
      rw [newContextScopeData, newScopeData] at hok
      dsimp only at hok
      rw [hz] at hok
      dsimp only at hok
      injection hok with hok
      refine ⟨_, top, rest, z, rfl, hz, by rw [← hok], rfl, by rw [← hok], ?_⟩
      rw [← hok]
      refine ⟨?_, by simp⟩
      simp only [statusesWF, Bool.and_eq_true, List.all_eq_true]
      exact ⟨rfl, fun g hg => by
        rcases List.mem_cons.mp hg with rfl | hg2
        · rfl
        · exact hsh g hg2⟩
    · intro s2 hok
      rw [newHandleScopeData, newScopeData] at hok
      dsimp only at hok
      rw [hz] at hok
      dsimp only at hok
      injection hok with hok
      refine ⟨_, top, rest, z, rfl, hz, by rw [← hok], rfl, by rw [← hok], ?_⟩
      rw [← hok]
      refine ⟨?_, by simp⟩
      simp only [statusesWF, Bool.and_eq_true, List.all_eq_true]
      exact ⟨rfl, fun g hg => by
        rcases List.mem_cons.mp hg with rfl | hg2
        · rfl
        · exact hsh g hg2⟩
    · intro s2 hok
      rw [newEscapableHandleScopeData, newScopeData] at hok
      dsimp only at hok
      rw [hz] at hok
      dsimp only at hok
      cases hrl : rawLocalNew raw undefinedAddr with
      | error e => rw [hrl] at hok; exact Except.noConfusion hok
      | ok pr =>
        obtain ⟨raw1, loc⟩ := pr
        rw [hrl] at hok
        dsimp only at hok
        injection hok with hok
        refine ⟨_, top, rest, z, rfl, hz, by rw [← hok], rfl, by rw [← hok], ?_⟩
        rw [← hok]
        refine ⟨?_, by simp⟩
        simp only [statusesWF, Bool.and_eq_true, List.all_eq_true]
        exact ⟨rfl, fun g hg => by
          rcases List.mem_cons.mp hg with rfl | hg2
          · rfl
          · exact hsh g hg2⟩
    · intro s2 hok
      rw [newTryCatchData, newScopeData] at hok
      dsimp only at hok
      rw [hz] at hok
      dsimp only at hok
      injection hok with hok
      refine ⟨_, top, rest, z, rfl, hz, by rw [← hok], rfl, by rw [← hok], ?_⟩
      rw [← hok]
      refine ⟨?_, by simp⟩
      simp only [statusesWF, Bool.and_eq_true, List.all_eq_true]
      exact ⟨rfl, fun g hg => by
        rcases List.mem_cons.mp hg with rfl | hg2
        · rfl
        · exact hsh g hg2⟩
    · intro mctx s2 hok
      rw [newCallbackScopeData, newScopeData] at hok
      dsimp only at hok
      rw [hz] at hok
      dsimp only at hok
      injection hok with hok
      refine ⟨_, top, rest, z, rfl, hz, by rw [← hok], rfl, by rw [← hok], ?_⟩
      rw [← hok]
      refine ⟨?_, by simp⟩
      simp only [statusesWF, Bool.and_eq_true, List.all_eq_true]
      exact ⟨rfl, fun g hg => by
        rcases List.mem_cons.mp hg with rfl | hg2
        · rfl
        · exact hsh g hg2⟩
    · intro s2 hok
      rw [exitTop] at hok
      dsimp only at hok
      cases rest with
      | nil => exact Except.noConfusion hok
      | cons parent below =>
        dsimp only at hok
        cases hps : parent.status with
        | Free =>
          exfalso
          have := hsh parent (by simp)
          rw [hps] at this
          simp [isShadowed] at this
        | Current z2 =>
          exfalso
          have := hsh parent (by simp)
          rw [hps] at this
          simp [isShadowed] at this
        | Shadowed z2 =>
          rw [hps] at hok
          injection hok with hok
          refine ⟨top, parent, below, z2, rfl, hps, by rw [← hok], by rw [← hok],
            by rw [← hok], ?_⟩
          rw [← hok]
          refine ⟨?_, by simp⟩
          simp only [statusesWF, Bool.and_eq_true, List.all_eq_true]
          exact ⟨rfl, fun g hg => hsh g (by simp [hg])⟩

/-- Full characterization of a successful ContextScope push. -/
theorem newContextScopeData_ok {s s2 : ScopeState} {top : Frame}
    {rest : List Frame} {ctx : Nat}
    (hfr : s.frames = top :: rest) (hok : newContextScopeData s ctx = .ok s2) :
    ∃ z, top.status = .Current z ∧
      s2 = ⟨{ status := .Current false, context := Option.some ctx,
              escapeSlot := top.escapeSlot, tryCatchSlot := Option.none,
              stsd := .contextScope ctx } ::
            { top with status := .Shadowed z } :: rest,
            { s.raw with enteredContexts := ctx :: s.raw.enteredContexts },
            rest.length + 1⟩ := by
  obtain ⟨fr, raw, cur⟩ := s
  simp only at hfr
  subst hfr
  rw [newContextScopeData, newScopeData] at hok
  dsimp only at hok
  cases hst : top.status with
  | Free => rw [hst] at hok; exact Except.noConfusion hok
  | Shadowed z => rw [hst] at hok; exact Except.noConfusion hok
  | Current z =>
    rw [hst] at hok
    dsimp only at hok
    injection hok with hok
    exact ⟨z, rfl, by rw [← hok]; simp⟩

/-- Full characterization of a successful HandleScope push. -/
theorem newHandleScopeData_ok {s s2 : ScopeState} {top : Frame}
    {rest : List Frame}
    (hfr : s.frames = top :: rest) (hok : newHandleScopeData s = .ok s2) :
    ∃ z, top.status = .Current z ∧
      s2 = ⟨{ status := .Current false, context := top.context,
              escapeSlot := top.escapeSlot, tryCatchSlot := Option.none,
              stsd := .handleScope } ::
            { top with status := .Shadowed z } :: rest,
            { s.raw with blocks := s.raw.blocks ++ [[]] },
            rest.length + 1⟩ := by
  obtain ⟨fr, raw, cur⟩ := s
  simp only at hfr
  subst hfr
  rw [newHandleScopeData, newScopeData] at hok
  dsimp only at hok
  cases hst : top.status with
  | Free => rw [hst] at hok; exact Except.noConfusion hok
  | Shadowed z => rw [hst] at hok; exact Except.noConfusion hok
  | Current z =>
    rw [hst] at hok
    dsimp only at hok
    injection hok with hok
    exact ⟨z, rfl, by rw [← hok]; simp⟩

/-- Full characterization of a successful TryCatch push. -/
theorem newTryCatchData_ok {s s2 : ScopeState} {top : Frame}
    {rest : List Frame}
    (hfr : s.frames = top :: rest) (hok : newTryCatchData s = .ok s2) :
    ∃ z, top.status = .Current z ∧
      s2 = ⟨{ status := .Current false, context := top.context,
              escapeSlot := top.escapeSlot,
              tryCatchSlot := Option.some (rest.length + 1),
              stsd := .tryCatch } ::
            { top with status := .Shadowed z } :: rest,
            { s.raw with traps := s.raw.traps + 1 },
            rest.length + 1⟩ := by
  obtain ⟨fr, raw, cur⟩ := s
  simp only at hfr
  subst hfr
  rw [newTryCatchData, newScopeData] at hok
  dsimp only at hok
  cases hst : top.status with
  | Free => rw [hst] at hok; exact Except.noConfusion hok
  | Shadowed z => rw [hst] at hok; exact Except.noConfusion hok
  | Current z =>
    rw [hst] at hok
    dsimp only at hok
    injection hok with hok
    exact ⟨z, rfl, by rw [← hok]; simp⟩

/-- Full characterization of a successful CallbackScope push. -/
theorem newCallbackScopeData_ok {s s2 : ScopeState} {top : Frame}
    {rest : List Frame} {mctx : Option Nat}
    (hfr : s.frames = top :: rest)
    (hok : newCallbackScopeData s mctx = .ok s2) :
    ∃ z, top.status = .Current z ∧
      s2 = ⟨{ status := .Current false, context := mctx,
              escapeSlot := top.escapeSlot, tryCatchSlot := Option.none,
              stsd := .noData } ::
            { top with status := .Shadowed z } :: rest,
            s.raw, rest.length + 1⟩ := by
  obtain ⟨fr, raw, cur⟩ := s
  simp only at hfr
  subst hfr
  rw [newCallbackScopeData, newScopeData] at hok
  dsimp only at hok
  cases hst : top.status with
  | Free => rw [hst] at hok; exact Except.noConfusion hok
  | Shadowed z => rw [hst] at hok; exact Except.noConfusion hok
  | Current z =>
    rw [hst] at hok
    dsimp only at hok
    injection hok with hok
    exact ⟨z, rfl, by rw [← hok]; simp⟩

/-- Full characterization of a successful EscapableHandleScope push. -/
theorem newEscapableHandleScopeData_ok {s s2 : ScopeState} {top : Frame}
    {rest : List Frame}
    (hfr : s.frames = top :: rest)
    (hok : newEscapableHandleScopeData s = .ok s2) :
    ∃ z raw1 loc, top.status = .Current z ∧
      rawLocalNew s.raw undefinedAddr = .ok (raw1, loc) ∧
      s2 = ⟨{ status := .Current false, context := top.context,
              escapeSlot := Option.some (rest.length + 1),
              tryCatchSlot := Option.none,
              stsd := .escapableHandleScope (Option.some loc) } ::
            { top with status := .Shadowed z } :: rest,
            { raw1 with blocks := raw1.blocks ++ [[]] },
            rest.length + 1⟩ := by
  obtain ⟨fr, raw, cur⟩ := s
  simp only at hfr
  subst hfr
  rw [newEscapableHandleScopeData, newScopeData] at hok
  dsimp only at hok
  cases hst : top.status with
  | Free => rw [hst] at hok; exact Except.noConfusion hok
  | Shadowed z => rw [hst] at hok; exact Except.noConfusion hok
  | Current z =>
    rw [hst] at hok
    dsimp only at hok
    cases hrl : rawLocalNew raw undefinedAddr with
    | error e => rw [hrl] at hok; exact Except.noConfusion hok
    | ok pr =>
      obtain ⟨raw1, loc⟩ := pr
      rw [hrl] at hok
      dsimp only at hok
      injection hok with hok
      exact ⟨z, raw1, loc, rfl, rfl, by rw [← hok]; simp⟩

/-- C9: every newly pushed scope inherits the cached parent
current-context pointer and escape-slot pointer at creation time: a plain
HandleScope or TryCatch keeps both of the parent fields, a ContextScope
keeps the escape slot while installing its own context, a CallbackScope
keeps the escape slot, and only a new EscapableHandleScope installs a fresh
escape slot (pointing at its own frame, distinct from any inherited one).
Consequently `get_current_context` inside a nested scope returns the cached
context entered by the enclosing ContextScope, and a HandleScope created
inside an EscapableHandleScope shares the one-shot slot of the parent. -/
theorem c9_context_and_escape_slot_inheritance :
    (∀ (s s2 : ScopeState) (top : Frame) (rest : List Frame),
       s.frames = top :: rest → newHandleScopeData s = .ok s2 →
       ∃ child rest2, s2.frames = child :: rest2 ∧
         child.context = top.context ∧ child.escapeSlot = top.escapeSlot) ∧
    (∀ (s s2 : ScopeState) (top : Frame) (rest : List Frame),
       s.frames = top :: rest → newTryCatchData s = .ok s2 →
       ∃ child rest2, s2.frames = child :: rest2 ∧
         child.context = top.context ∧ child.escapeSlot = top.escapeSlot) ∧
    (∀ (s s2 : ScopeState) (top : Frame) (rest : List Frame) (ctx : Nat),
       s.frames = top :: rest → newContextScopeData s ctx = .ok s2 →
       ∃ child rest2, s2.frames = child :: rest2 ∧
         child.escapeSlot = top.escapeSlot ∧
         child.context = Option.some ctx) ∧
    (∀ (s s2 : ScopeState) (top : Frame) (rest : List Frame) (mctx : Option Nat),
       s.frames = top :: rest → newCallbackScopeData s mctx = .ok s2 →
       ∃ child rest2, s2.frames = child :: rest2 ∧
         child.escapeSlot = top.escapeSlot) ∧
    (∀ (s s2 : ScopeState) (top : Frame) (rest : List Frame),
       s.frames = top :: rest → newEscapableHandleScopeData s = .ok s2 →
       ∃ child rest2, s2.frames = child :: rest2 ∧
         child.context = top.context ∧
         child.escapeSlot = Option.some (rest.length + 1) ∧
         (∀ j, top.escapeSlot = Option.some j → j < rest.length + 1 →
            child.escapeSlot ≠ top.escapeSlot)) ∧
    (∀ (s : ScopeState) (top : Frame) (rest : List Frame) (c : Nat),
       s.frames = top :: rest → top.context = Option.some c →
       (getCurrentContextData s).1 = Option.some c) ∧
    (∀ (s s1 s2 s3 : ScopeState) (ctx : Nat) (top : Frame) (rest : List Frame),
       s.frames = top :: rest →
       newContextScopeData s ctx = .ok s1 → newHandleScopeData s1 = .ok s2 →
       newTryCatchData s2 = .ok s3 →
       (getCurrentContextData s3).1 = Option.some ctx) ∧
    (∀ (s s1 s2 : ScopeState) (top : Frame) (rest : List Frame),
       s.frames = top :: rest →
       newEscapableHandleScopeData s = .ok s1 → newHandleScopeData s1 = .ok s2 →
       ∃ c1 r1 c2 r2, s1.frames = c1 :: r1 ∧ s2.frames = c2 :: r2 ∧
         c2.escapeSlot = c1.escapeSlot ∧
         c1.escapeSlot = Option.some (rest.length + 1)) := by
  refine ⟨?_, ?_, ?_, ?_, ?_, ?_, ?_, ?_⟩
  · intro s s2 top rest hfr hok
    obtain ⟨z, -, hs2⟩ := newHandleScopeData_ok hfr hok
    subst hs2
    exact ⟨_, _, rfl, rfl, rfl⟩
  · intro s s2 top rest hfr hok
    obtain ⟨z, -, hs2⟩ := newTryCatchData_ok hfr hok
    subst hs2
    exact ⟨_, _, rfl, rfl, rfl⟩
  · intro s s2 top rest ctx hfr hok
    obtain ⟨z, -, hs2⟩ := newContextScopeData_ok hfr hok
    subst hs2
    exact ⟨_, _, rfl, rfl, rfl⟩
  · intro s s2 top rest mctx hfr hok
    obtain ⟨z, -, hs2⟩ := newCallbackScopeData_ok hfr hok
    subst hs2
    exact ⟨_, _, rfl, rfl⟩
  · intro s s2 top rest hfr hok
    obtain ⟨z, raw1, loc, -, -, hs2⟩ := newEscapableHandleScopeData_ok hfr hok
    subst hs2
    refine ⟨_, _, rfl, rfl, rfl, ?_⟩
    intro j hj hlt heq
    rw [hj] at heq
    simp only [Option.some.injEq] at heq
    omega
  · intro s top rest c hfr hc
    obtain ⟨fr, raw, cur⟩ := s
    simp only at hfr
    subst hfr
    simp [getCurrentContextData, hc]
  · intro s s1 s2 s3 ctx top rest hfr h1 h2 h3
    obtain ⟨z1, -, hs1⟩ := newContextScopeData_ok hfr h1
    subst hs1
    obtain ⟨z2, -, hs2⟩ := newHandleScopeData_ok rfl h2
    subst hs2
    obtain ⟨z3, -, hs3⟩ := newTryCatchData_ok rfl h3
    subst hs3
    simp [getCurrentContextData]
  · intro s s1 s2 top rest hfr h1 h2
    obtain ⟨z1, raw1, loc, -, -, hs1⟩ := newEscapableHandleScopeData_ok hfr h1
    subst hs1
    obtain ⟨z2, -, hs2⟩ := newHandleScopeData_ok rfl h2
    subst hs2
    exact ⟨_, _, _, _, rfl, rfl, rfl, rfl⟩

/-- The list `reachableTypes` is closed under all four scope constructor
type functions. -/
theorem reachable_closed :
    ∀ p ∈ reachableTypes,
      (newContextScopeType p).getD .isolate ∈ reachableTypes ∧
      (newHandleScopeType p).getD .isolate ∈ reachableTypes ∧
      (newEscapableHandleScopeType p).getD .isolate ∈ reachableTypes ∧
      (newTryCatchType p).getD .isolate ∈ reachableTypes := by decide

/-- Every scope type reachable through the constructors is in
`reachableTypes`. -/
theorem reachable_mem {t : RustScopeType} (h : ReachableScopeType t) :
    t ∈ reachableTypes := by
  induction h with
  | isolate => decide
  | callback => decide
  | ctxStep hp hnew ih => simpa [hnew] using (reachable_closed _ ih).1
  | hsStep hp hnew ih => simpa [hnew] using (reachable_closed _ ih).2.1
  | ehsStep hp hnew ih => simpa [hnew] using (reachable_closed _ ih).2.2.1
  | tcStep hp hnew ih => simpa [hnew] using (reachable_closed _ ih).2.2.2

/-- C4 counterexample: the claim "every scope constructor yields a superset
of the capabilities of the parent" is false.  The reachable parent type
`TryCatch<HandleScope<()>>` (built by HandleScope::new from the isolate, then
TryCatch::new) has the exception-inspection capability, but HandleScope::new
on it yields `HandleScope<()>`, whose capability set does not include
exception inspection. -/
theorem c4_counterexample :
    ReachableScopeType (.tryCatch (.handleScope false)) ∧
    newHandleScopeType (.tryCatch (.handleScope false)) =
      Option.some (.handleScope false) ∧
    capsLe (caps (.tryCatch (.handleScope false)))
      (caps (.handleScope false)) = false :=
  ⟨@ReachableScopeType.tcStep (.handleScope false)
     (.tryCatch (.handleScope false))
     (@ReachableScopeType.hsStep .isolate (.handleScope false)
       ReachableScopeType.isolate (by decide))
     (by decide),
   by decide, by decide⟩

/-- C4 (amended): for every reachable parent scope type, each scope
constructor yields a type whose capabilities include all the parent
handle-creation, escape and context-access capabilities; constructing a new
TryCatch additionally preserves the full set including exception inspection.
Only the exception-inspection capability can be lost, when a non-TryCatch
scope is constructed inside a TryCatch. -/
theorem c4_capability_monotonicity (p c : RustScopeType)
    (hp : ReachableScopeType p) :
    (newContextScopeType p = Option.some c →
       capsLeExceptTryCatch (caps p) (caps c) = true) ∧
    (newHandleScopeType p = Option.some c →
       capsLeExceptTryCatch (caps p) (caps c) = true) ∧
    (newEscapableHandleScopeType p = Option.some c →
       capsLeExceptTryCatch (caps p) (caps c) = true) ∧
    (newTryCatchType p = Option.some c →
       capsLe (caps p) (caps c) = true) := by
  have hm := reachable_mem hp
  have key : ∀ q ∈ reachableTypes,
      capsLeExceptTryCatch (caps q)
        (caps ((newContextScopeType q).getD q)) = true ∧
      capsLeExceptTryCatch (caps q)
        (caps ((newHandleScopeType q).getD q)) = true ∧
      capsLeExceptTryCatch (caps q)
        (caps ((newEscapableHandleScopeType q).getD q)) = true ∧
      capsLe (caps q) (caps ((newTryCatchType q).getD q)) = true := by decide
  obtain ⟨k1, k2, k3, k4⟩ := key p hm
  refine ⟨fun hnew => ?_, fun hnew => ?_, fun hnew => ?_, fun hnew => ?_⟩
  · simpa [hnew] using k1
  · simpa [hnew] using k2
  · simpa [hnew] using k3
  · simpa [hnew] using k4

/-- Witness for C4 at a concrete input. -/
theorem c4_witness :
    ReachableScopeType (.handleScope false) ∧
    newEscapableHandleScopeType (.handleScope false) =
      Option.some (.escapableHandleScope false) ∧
    capsLeExceptTryCatch (caps (.handleScope false))
      (caps (.escapableHandleScope false)) = true := by
  have hr : ReachableScopeType (.handleScope false) :=
    @ReachableScopeType.hsStep .isolate (.handleScope false)
      ReachableScopeType.isolate (by decide)
  exact ⟨hr, by decide,
    (c4_capability_monotonicity (.handleScope false)
      (.escapableHandleScope false) hr).2.2.1 (by decide)⟩

/-- C5 counterexample: the claim "creating a Local handle from a handle
belonging to a different Isolate than the scope panics" is false for
Local-kind handles: a Local carries no isolate at runtime
(`HostIsolate::Scope`), so `Local::new` on a scope of isolate 0 with a local
handle whose objects live in isolate 1 passes the `match_isolate` assertion
(the source marks this with a TODO). -/
theorem c5_counterexample :
    (ModelHandle.mk 1 .localHandle).isolate ≠ 0 ∧
    localNewCheck 0 ⟨1, .localHandle⟩ = .ok () :=
  ⟨by decide, rfl⟩

/-- C5 (amended): `ContextScope::new` panics when the parent scope and the
Context belong to different isolates; `Local::new` panics when given a
Global handle of a different isolate or a disposed Global; but a Local-kind
handle reports `HostIsolate::Scope` and always passes the check, so
cross-isolate Locals are not detected. -/
theorem c5_cross_isolate_checks (scopeIso ctxIso : Nat) (h : ModelHandle) :
    (scopeIso ≠ ctxIso → contextScopeNewCheck scopeIso ctxIso =
       .error "scope and Context do not belong to the same Isolate") ∧
    (contextScopeNewCheck scopeIso scopeIso = .ok ()) ∧
    (h.kind = .globalHandle → h.isolate ≠ scopeIso →
       localNewCheck scopeIso h =
         .error "assertion failed: handle host isolate mismatch") ∧
    (h.kind = .globalHandle → h.isolate = scopeIso →
       localNewCheck scopeIso h = .ok ()) ∧
    (h.kind = .disposedGlobalHandle →
       localNewCheck scopeIso h =
         .error "assertion failed: handle host isolate mismatch") ∧
    (h.kind = .localHandle → localNewCheck scopeIso h = .ok ()) := by
  refine ⟨fun hne => ?_, ?_, fun hk hne => ?_, fun hk he => ?_,
    fun hk => ?_, fun hk => ?_⟩
  · simp [contextScopeNewCheck, hne]
  · simp [contextScopeNewCheck]
  · simp [localNewCheck, getRawInfo, hk, applyScope, matchIsolate,
      Ne.symm hne]
  · simp [localNewCheck, getRawInfo, hk, applyScope, matchIsolate, he]
  · simp [localNewCheck, getRawInfo, hk, applyScope, matchIsolate]
  · simp [localNewCheck, getRawInfo, hk, applyScope, matchIsolate]

/-- Witness for C5 at concrete inputs. -/
theorem c5_witness :
    (0 : Nat) ≠ 1 ∧
    contextScopeNewCheck 0 1 =
      .error "scope and Context do not belong to the same Isolate" ∧
    localNewCheck 0 ⟨1, .globalHandle⟩ =
      .error "assertion failed: handle host isolate mismatch" := by
  refine ⟨by decide, ?_, ?_⟩
  · exact (c5_cross_isolate_checks 0 1 ⟨1, .globalHandle⟩).1 (by decide)
  · exact (c5_cross_isolate_checks 0 1 ⟨1, .globalHandle⟩).2.2.1 rfl (by decide)

/-- C10: a Local handle is never empty or null (it wraps a non-null address
by construction), and the TryCatch accessors that can yield an empty V8
handle (`exception`, `message`, `stack_trace`, `rethrow`) return an Option,
mapping a null raw pointer to `none` and any other pointer to `some` Local
viewing it. -/
theorem c10_local_never_null (r : Nat) :
    (∀ l : LocalAddr, l.val ≠ 0) ∧
    (r = 0 → tryCatchException r = Option.none ∧
       tryCatchMessage r = Option.none ∧
       tryCatchStackTrace r = Option.none ∧
       tryCatchRethrow r = Option.none) ∧
    (r ≠ 0 → ∃ l : LocalAddr, l.val = r ∧
       tryCatchException r = Option.some l ∧
       tryCatchMessage r = Option.some l ∧
       tryCatchStackTrace r = Option.some l ∧
       tryCatchRethrow r = Option.some l) := by
  refine ⟨fun l => l.property, fun h0 => ?_, fun hn => ?_⟩
  · subst h0
    simp [tryCatchException, tryCatchMessage, tryCatchStackTrace,
      tryCatchRethrow, localFromRaw]
  · refine ⟨⟨r, hn⟩, rfl, ?_, ?_, ?_, ?_⟩ <;>
      simp [tryCatchException, tryCatchMessage, tryCatchStackTrace,
        tryCatchRethrow, localFromRaw, hn]

/-- Witness for C10 at concrete inputs. -/
theorem c10_witness :
    tryCatchException 0 = Option.none ∧
    (∃ l : LocalAddr, l.val = 5 ∧ tryCatchException 5 = Option.some l) := by
  constructor
  · exact ((c10_local_never_null 0).2.1 rfl).1
  · obtain ⟨l, hv, he, -⟩ := (c10_local_never_null 5).2.2 (by decide)
    exact ⟨l, hv, he⟩

/-- Witness for C1: dropping a live HandleScope frame marks it zombie
without popping; touching the root afterwards pops exactly it. -/
theorem c1_witness :
    (Stsd.handleScope).handleBearing = true ∧
    scopeDrop ⟨[⟨.Current false, Option.none, Option.none, Option.none, .handleScope⟩,
                ⟨.Shadowed false, Option.none, Option.none, Option.none, .noData⟩],
               ⟨[[]], [], 0⟩, 1⟩ 0 =
      .ok ⟨[⟨.Current true, Option.none, Option.none, Option.none, .handleScope⟩,
            ⟨.Shadowed false, Option.none, Option.none, Option.none, .noData⟩],
           ⟨[[]], [], 0⟩, 1⟩ ∧
    tryActivateScope ⟨[⟨.Current true, Option.none, Option.none, Option.none, .handleScope⟩,
                       ⟨.Shadowed false, Option.none, Option.none, Option.none, .noData⟩],
                      ⟨[[]], [], 0⟩, 1⟩ 1 =
      .ok ⟨[⟨.Current false, Option.none, Option.none, Option.none, .noData⟩],
           ⟨[], [], 0⟩, 0⟩ := by
  refine ⟨rfl, ?_, ?_⟩
  · exact c1_deferred_zombie_drop.1 ⟨.Current false, Option.none, Option.none, Option.none, .handleScope⟩
      [⟨.Shadowed false, Option.none, Option.none, Option.none, .noData⟩]
      ⟨[[]], [], 0⟩ 1 rfl rfl
  · exact c1_deferred_zombie_drop.2 ⟨.Current true, Option.none, Option.none, Option.none, .handleScope⟩
      [] ⟨.Shadowed false, Option.none, Option.none, Option.none, .noData⟩ []
      ⟨[[]], [], 0⟩ 1 rfl (by simp) rfl

/-- Witness for C2: a concrete first escape succeeds and the second call on
the same scope fails with the double-escape panic. -/
theorem c2_witness :
    escapeScope ⟨[⟨.Current false, Option.none, Option.some 1, Option.none,
                   .escapableHandleScope (Option.some ⟨0, 0⟩)⟩,
                  ⟨.Shadowed false, Option.none, Option.none, Option.none, .noData⟩],
                 ⟨[[1], []], [], 0⟩, 1⟩ 0 5 =
      .ok (⟨[⟨.Current false, Option.none, Option.some 1, Option.none,
              .escapableHandleScope Option.none⟩,
             ⟨.Shadowed false, Option.none, Option.none, Option.none, .noData⟩],
            ⟨[[5], []], [], 0⟩, 1⟩, ⟨0, 0⟩) ∧
    escapeScope ⟨[⟨.Current false, Option.none, Option.some 1, Option.none,
                   .escapableHandleScope Option.none⟩,
                  ⟨.Shadowed false, Option.none, Option.none, Option.none, .noData⟩],
                 ⟨[[5], []], [], 0⟩, 1⟩ 0 6 =
      .error "EscapableHandleScope::escape() called twice" := by
  refine ⟨rfl, ?_⟩
  exact c2_double_escape
    ⟨[⟨.Current false, Option.none, Option.some 1, Option.none,
       .escapableHandleScope (Option.some ⟨0, 0⟩)⟩,
      ⟨.Shadowed false, Option.none, Option.none, Option.none, .noData⟩],
     ⟨[[1], []], [], 0⟩, 1⟩
    ⟨[⟨.Current false, Option.none, Option.some 1, Option.none,
       .escapableHandleScope Option.none⟩,
      ⟨.Shadowed false, Option.none, Option.none, Option.none, .noData⟩],
     ⟨[[5], []], [], 0⟩, 1⟩ 0 5 6 ⟨0, 0⟩ rfl rfl

/-- Witness for C3 at a concrete state: the escape slot lands in the parent
block, pre-filled with undefined, before the child block opens. -/
theorem c3_witness :
    newEscapableHandleScopeData
      ⟨[⟨.Current false, Option.none, Option.none, Option.none, .handleScope⟩,
        ⟨.Shadowed false, Option.none, Option.none, Option.none, .noData⟩],
       ⟨[[]], [], 0⟩, 1⟩ =
      .ok ⟨[⟨.Current false, Option.none, Option.some 2, Option.none,
             .escapableHandleScope (Option.some ⟨0, 0⟩)⟩,
            ⟨.Shadowed false, Option.none, Option.none, Option.none, .handleScope⟩,
            ⟨.Shadowed false, Option.none, Option.none, Option.none, .noData⟩],
           ⟨[[1], []], [], 0⟩, 2⟩ ∧
    (∃ child rest2,
       (⟨[⟨.Current false, Option.none, Option.some 2, Option.none,
           .escapableHandleScope (Option.some ⟨0, 0⟩)⟩,
          ⟨.Shadowed false, Option.none, Option.none, Option.none, .handleScope⟩,
          ⟨.Shadowed false, Option.none, Option.none, Option.none, .noData⟩],
         ⟨[[1], []], [], 0⟩, 2⟩ : ScopeState).frames = child :: rest2 ∧
       child.stsd = .escapableHandleScope (Option.some ⟨(0 : Nat), (0 : Nat)⟩) ∧
       child.escapeSlot = Option.some 2 ∧
       (⟨[[1], []], [], 0⟩ : RawIsolate).blocks = ([] ++ [[] ++ [undefinedAddr]]) ++ [[]]) ∧
    readSlot (writeSlot ⟨[[1], []], [], 0⟩ ⟨0, 0⟩ 5) ⟨0, 0⟩ = Option.some 5 := by
  refine ⟨rfl, ?_, ?_⟩
  · obtain ⟨child, rest2, h1, h2, h3, h4⟩ :=
      (c3_escape_slot
        ⟨[⟨.Current false, Option.none, Option.none, Option.none, .handleScope⟩,
          ⟨.Shadowed false, Option.none, Option.none, Option.none, .noData⟩],
         ⟨[[]], [], 0⟩, 1⟩
        ⟨[⟨.Current false, Option.none, Option.some 2, Option.none,
           .escapableHandleScope (Option.some ⟨0, 0⟩)⟩,
          ⟨.Shadowed false, Option.none, Option.none, Option.none, .handleScope⟩,
          ⟨.Shadowed false, Option.none, Option.none, Option.none, .noData⟩],
         ⟨[[1], []], [], 0⟩, 2⟩
        ⟨.Current false, Option.none, Option.none, Option.none, .handleScope⟩
        [⟨.Shadowed false, Option.none, Option.none, Option.none, .noData⟩]
        [] [] rfl rfl rfl).1
    exact ⟨child, rest2, h1, h2, h3, by simpa using h4⟩
  · exact (c3_escape_slot
      ⟨[⟨.Current false, Option.none, Option.none, Option.none, .handleScope⟩,
        ⟨.Shadowed false, Option.none, Option.none, Option.none, .noData⟩],
       ⟨[[]], [], 0⟩, 1⟩
      ⟨[⟨.Current false, Option.none, Option.some 2, Option.none,
         .escapableHandleScope (Option.some ⟨0, 0⟩)⟩,
        ⟨.Shadowed false, Option.none, Option.none, Option.none, .handleScope⟩,
        ⟨.Shadowed false, Option.none, Option.none, Option.none, .noData⟩],
       ⟨[[1], []], [], 0⟩, 2⟩
      ⟨.Current false, Option.none, Option.none, Option.none, .handleScope⟩
      [⟨.Shadowed false, Option.none, Option.none, Option.none, .noData⟩]
      [] [] rfl rfl rfl).2.1 ⟨[[1], []], [], 0⟩ ⟨0, 0⟩ 5 [1] rfl (by decide)

/-- Witness for C6: with a live HandleScope on the stack, constructing from
the isolate and touching the shadowed root both panic. -/
theorem c6_witness :
    handleScopeNewFromIsolate
      ⟨[⟨.Current false, Option.none, Option.none, Option.none, .handleScope⟩,
        ⟨.Shadowed false, Option.none, Option.none, Option.none, .noData⟩],
       ⟨[[]], [], 0⟩, 1⟩ =
      .error "active scope cannot be dropped" ∧
    tryActivateScope
      ⟨[⟨.Current false, Option.none, Option.none, Option.none, .handleScope⟩,
        ⟨.Shadowed false, Option.none, Option.none, Option.none, .noData⟩],
       ⟨[[]], [], 0⟩, 1⟩ 1 =
      .error "active scope cannot be dropped" := by
  constructor
  · exact c6_live_scope_unwind_panics.1 ⟨.Current false, Option.none, Option.none, Option.none, .handleScope⟩
      [] ⟨.Shadowed false, Option.none, Option.none, Option.none, .noData⟩
      ⟨[[]], [], 0⟩ 1 rfl (by simp)
      ⟨⟨.Current false, Option.none, Option.none, Option.none, .handleScope⟩, by simp, rfl⟩
  · exact c6_live_scope_unwind_panics.2 ⟨.Current false, Option.none, Option.none, Option.none, .handleScope⟩
      [] ⟨.Shadowed false, Option.none, Option.none, Option.none, .noData⟩ []
      ⟨[[]], [], 0⟩ 1 rfl (by simp) rfl
      ⟨⟨.Current false, Option.none, Option.none, Option.none, .handleScope⟩, by simp, rfl⟩

/-- Witness for C7: dropping a concrete ContextScope pops immediately and
exits the raw context. -/
theorem c7_witness :
    scopeDrop ⟨[⟨.Current false, Option.some 7, Option.none, Option.none, .contextScope 7⟩,
                ⟨.Shadowed false, Option.none, Option.none, Option.none, .handleScope⟩,
                ⟨.Shadowed false, Option.none, Option.none, Option.none, .noData⟩],
               ⟨[[]], [7], 0⟩, 2⟩ 0 =
      .ok ⟨[⟨.Current false, Option.none, Option.none, Option.none, .handleScope⟩,
            ⟨.Shadowed false, Option.none, Option.none, Option.none, .noData⟩],
           ⟨[[]], [], 0⟩, 1⟩ ∧
    (destructStsd ⟨[[]], [7], 0⟩ (.contextScope 7)).enteredContexts =
      ([7] : List Nat).tail := by
  constructor
  · exact (c7_immediate_pop
      ⟨.Current false, Option.some 7, Option.none, Option.none, .contextScope 7⟩
      ⟨.Shadowed false, Option.none, Option.none, Option.none, .handleScope⟩
      [⟨.Shadowed false, Option.none, Option.none, Option.none, .noData⟩]
      ⟨[[]], [7], 0⟩ 2 false rfl rfl rfl).1
  · exact ((c7_immediate_pop
      ⟨.Current false, Option.some 7, Option.none, Option.none, .contextScope 7⟩
      ⟨.Shadowed false, Option.none, Option.none, Option.none, .handleScope⟩
      [⟨.Shadowed false, Option.none, Option.none, Option.none, .noData⟩]
      ⟨[[]], [7], 0⟩ 2 false rfl rfl rfl).2.1 7 rfl).1

/-- Witness for C8: pushing a HandleScope on the initial state has the
push shape. -/
theorem c8_witness :
    Inv initState ∧
    PushShape initState
      ⟨[⟨.Current false, Option.none, Option.none, Option.none, .handleScope⟩,
        ⟨.Shadowed false, Option.none, Option.none, Option.none, .noData⟩],
       ⟨[[]], [], 0⟩, 1⟩ := by
  have hInv : Inv initState := ⟨rfl, rfl⟩
  exact ⟨hInv, (c8_lifo_push_pop initState hInv).2.1 _ rfl⟩

/-- Witness for C9 at concrete states. -/
theorem c9_witness :
    (getCurrentContextData
      ⟨[⟨.Current false, Option.some 7, Option.none, Option.none, .noData⟩],
       ⟨[], [], 0⟩, 0⟩).1 = Option.some 7 ∧
    (∃ child rest2,
       (⟨[⟨.Current false, Option.none, Option.none, Option.none, .handleScope⟩,
          ⟨.Shadowed false, Option.none, Option.none, Option.none, .noData⟩],
         ⟨[[]], [], 0⟩, 1⟩ : ScopeState).frames = child :: rest2 ∧
       child.context = Option.none ∧ child.escapeSlot = Option.none) := by
  constructor
  · exact c9_context_and_escape_slot_inheritance.2.2.2.2.2.1 _
      ⟨.Current false, Option.some 7, Option.none, Option.none, .noData⟩ [] 7 rfl rfl
  · exact c9_context_and_escape_slot_inheritance.1 initState _
      ⟨.Current false, Option.none, Option.none, Option.none, .noData⟩ [] rfl rfl

end SafeV8
